import Mathlib

/-
Verification of the python-firstpaygateway client library.

This file shallowly embeds the logic of `firstpaygateway/client.py` and
`firstpaygateway/errors.py` (key-casing conversion, temporal extraction,
the result wrapper's attribute resolution, error classification, the
operation table and the query date-parameter expansion) as executable Lean
definitions, and proves or refutes the specification's claims about them.

Conventions:
- Python strings are modeled as `List Char` (with `String` wrappers at the
  API surface); machine behavior of CPython's `re` module on the concrete
  patterns of the source is modeled by hand-rolled recognizers, including
  the source's malformed quantifier `{1:2}` which CPython treats as six
  literal characters.
- Fallible Python code is modeled with `Except PyErr`.
- External collaborators (the `json` module, `dateutil`, the HTTP
  transport) are modeled only as far as the claims exercise them; each such
  modeling choice is documented at the definition it concerns.
-/

-- ===== Characters and Python case conversion =====

/-- Character class `[a-z]` of the source's regexes (ASCII codes 97..122). -/
def isLowerAZ (c : Char) : Bool := 97 ≤ c.toNat && c.toNat ≤ 122

/-- Character class `[A-Z]` (ASCII codes 65..90). -/
def isUpperAZ (c : Char) : Bool := 65 ≤ c.toNat && c.toNat ≤ 90

/-- Character class `\d` = `[0-9]` (ASCII codes 48..57). -/
def isDigit09 (c : Char) : Bool := 48 ≤ c.toNat && c.toNat ≤ 57

/-- Characters that are a lowercase letter or a digit. -/
def lowerOrDigit (c : Char) : Bool := isLowerAZ c || isDigit09 c

/-- Character class `[A-z]` as written in `_to_camel_case`'s pattern: the
whole ASCII band 65..122, which also contains `[`, `\`, `]`, `^`, `_`
and the backquote. -/
def inAZband (c : Char) : Bool := 65 ≤ c.toNat && c.toNat ≤ 122

/-- Python `str.upper()` on a single character, restricted to ASCII (the
only characters the source ever upcases are in the `[A-z]` band, where
CPython's Unicode uppercasing agrees with ASCII uppercasing). -/
def pyUpperChar (c : Char) : Char :=
  if isLowerAZ c then Char.ofNat (c.toNat - 32) else c

/-- Python `str.lower()` on a single character, restricted to ASCII (the
inputs the claims exercise are ASCII identifiers). -/
def pyLowerChar (c : Char) : Char :=
  if isUpperAZ c then Char.ofNat (c.toNat + 32) else c

/-- Scanner of `re.sub(r'(?!^)_([A-z])', lambda m: m.group(1).upper(), s)`
from position 1 onward: left-to-right, each non-overlapping occurrence of
`_` followed by an `[A-z]` character is replaced by that character
uppercased, and scanning resumes after the consumed pair. -/
def camelAux : List Char → List Char
  | [] => []
  | c :: rest =>
    if c = '_' then
      match rest with
      | d :: rest2 =>
        if inAZband d then pyUpperChar d :: camelAux rest2
        else '_' :: d :: camelAux rest2
      | [] => ['_']
    else c :: camelAux rest

/-- `_to_camel_case` on a character list.  The lookahead `(?!^)` prevents a
match starting at position 0, so the first character always passes through. -/
def toCamelL : List Char → List Char
  | [] => []
  | c :: rest => c :: camelAux rest

/-- `_to_camel_case(s)`: snake_case to camelCase. -/
def to_camel_case (s : String) : String := String.mk (toCamelL s.data)

/-- Maximal prefix of `[a-z]` characters (the greedy `[a-z]+` tail of a
match of `(.)([A-Z][a-z]+)` after its first mandatory lowercase letter). -/
def lowerRun : List Char → List Char
  | [] => []
  | c :: rest => if isLowerAZ c then c :: lowerRun rest else []

/-- Remainder after `lowerRun`. -/
def lowerRest : List Char → List Char
  | [] => []
  | c :: rest => if isLowerAZ c then lowerRest rest else c :: rest

theorem lowerRun_append_lowerRest (l : List Char) : lowerRun l ++ lowerRest l = l := by
  induction l with
  | nil => rfl
  | cons c rest ih =>
    by_cases h : isLowerAZ c = true
    · simp [lowerRun, lowerRest, h, ih]
    · simp [lowerRun, lowerRest, h]

theorem lowerRest_length (l : List Char) : (lowerRest l).length ≤ l.length := by
  induction l with
  | nil => simp [lowerRest]
  | cons c rest ih =>
    by_cases h : isLowerAZ c = true
    · simp [lowerRest, h]
      omega
    · simp [lowerRest, h]

/-- First substitution pass of `_to_lower_underscore`:
`re.sub('(.)([A-Z][a-z]+)', r'\1_\2', s)`.  A match needs any character
except a newline, then an uppercase letter, then at least one lowercase
letter; the greedy `[a-z]+` consumes the maximal lowercase run, and
scanning resumes after the whole match. -/
def sub1 : List Char → List Char
  | [] => []
  | [c] => [c]
  | [c, d] => [c, d]
  | c1 :: c2 :: c3 :: rest =>
    if c1 != '\n' && isUpperAZ c2 && isLowerAZ c3 then
      c1 :: '_' :: c2 :: c3 :: (lowerRun rest ++ sub1 (lowerRest rest))
    else c1 :: sub1 (c2 :: c3 :: rest)
termination_by l => l.length
decreasing_by
  · simp
    have := lowerRest_length rest
    omega
  · simp

/-- Second substitution pass of `_to_lower_underscore`:
`re.sub('([a-z0-9])([A-Z])', r'\1_\2', s1)`. -/
def sub2 : List Char → List Char
  | [] => []
  | [c] => [c]
  | c1 :: c2 :: rest =>
    if (isLowerAZ c1 || isDigit09 c1) && isUpperAZ c2 then
      c1 :: '_' :: c2 :: sub2 rest
    else c1 :: sub2 (c2 :: rest)
termination_by l => l.length

/-- `_to_lower_underscore` on a character list: the two substitution passes
followed by `.lower()`. -/
def toLowerUnderscoreL (l : List Char) : List Char :=
  (sub2 (sub1 l)).map pyLowerChar

/-- `_to_lower_underscore(s)`: camelCase/PascalCase to snake_case. -/
def to_lower_underscore (s : String) : String :=
  String.mk (toLowerUnderscoreL s.data)

-- ===== Snake-case identifiers as segment lists =====

/-- Every character is a lowercase letter or digit. -/
def allLowerDigit (l : List Char) : Bool := l.all lowerOrDigit

/-- A snake_case identifier beyond its first segment, as a list of segments;
each segment is its leading character paired with its remaining characters.
`goodSegs` states the side conditions of the (amended) round-trip claim:
every segment starts with a lowercase letter and continues with lowercase
letters or digits, and every segment other than the last is at least two
characters long. -/
def goodSegs : List (Char × List Char) → Bool
  | [] => true
  | (h, t) :: ss =>
    isLowerAZ h && allLowerDigit t && (ss.isEmpty || !t.isEmpty) && goodSegs ss

/-- The underscore-joined rendering of the trailing segments: for segments
`(h1, t1), (h2, t2), ...` this is `_h1t1_h2t2...`. -/
def segJoin : List (Char × List Char) → List Char
  | [] => []
  | (h, t) :: ss => '_' :: h :: (t ++ segJoin ss)

/-- The camelCase image of the trailing segments: each `_hiti` becomes
`Hiti` (leading letter uppercased, underscore dropped). -/
def segCamel : List (Char × List Char) → List Char
  | [] => []
  | (h, t) :: ss => pyUpperChar h :: (t ++ segCamel ss)

/-- The boundary part of `_to_lower_underscore`'s output before the final
`.lower()`: every segment boundary carries exactly one underscore, inserted
in front of the still-uppercase leading letter. -/
def segSnakeOut : List (Char × List Char) → List Char
  | [] => []
  | (h, t) :: ss => '_' :: pyUpperChar h :: (t ++ segSnakeOut ss)

/-- The exact output of the first substitution pass on the boundary part of
a camelCase image.  The flag records the scanner state when the camel image
of the remaining segments is reached: `true` when the scan position still
precedes the character in front of the next uppercase letter (so a
`(.)([A-Z][a-z]+)` match is possible there), `false` when a previous greedy
match consumed everything up to the uppercase letter itself (in which case
that boundary receives no underscore in this pass; the second pass inserts
it). -/
def bOut : Bool → List (Char × List Char) → List Char
  | _, [] => []
  | false, (h, t) :: ss => pyUpperChar h :: (t ++ bOut true ss)
  | true, (h, []) :: ss => pyUpperChar h :: bOut true ss
  | true, (h, c3 :: t2) :: ss =>
    if isLowerAZ c3 then
      '_' :: pyUpperChar h :: c3 :: (t2 ++ bOut (!t2.all isLowerAZ) ss)
    else pyUpperChar h :: c3 :: (t2 ++ bOut true ss)

-- ===== JSON documents and Python values =====

/-- A decoded JSON document (CPython `json.loads` output shape). -/
inductive Json where
  | str (s : String)
  | int (n : Int)
  | bool (b : Bool)
  | null
  | arr (elems : List Json)
  | obj (fields : List (String × Json))

/-- Python truthiness of a JSON value. -/
def Json.truthy : Json → Bool
  | .str s => !(s == "")
  | .int n => !(n == 0)
  | .bool b => b
  | .null => false
  | .arr xs => !xs.isEmpty
  | .obj fs => !fs.isEmpty

/-- Dictionary lookup (`key in d` / `d[key]`) over a field list. -/
def lookupField : List (String × Json) → String → Option Json
  | [], _ => none
  | (k2, v) :: rest, k => if k2 = k then some v else lookupField rest k

/-- Python exceptions the modeled code can raise. -/
inductive PyErr where
  | attributeError (attr : String)
  | typeError
  | valueError
  | indexError
  | keyError
deriving DecidableEq

-- ===== The temporal extractor =====

/-- Consume exactly `n` `\d` characters. -/
def takeDigits : Nat → List Char → Option (List Char)
  | 0, l => some l
  | n + 1, c :: rest => if isDigit09 c then takeDigits n rest else none
  | _ + 1, [] => none

/-- Consume one literal character. -/
def takeLit (c : Char) : List Char → Option (List Char)
  | d :: rest => if d = c then some rest else none
  | [] => none

/-- Tail of `ISO_DATETIME_RE` after `T\d{2}:\d{2}`: `(:\d{2}(\.\d+)?)?$`. -/
def isoSecondsTail (l : List Char) : Bool :=
  match l with
  | [] => true
  | _ =>
    match (takeLit ':' l).bind (takeDigits 2) with
    | none => false
    | some l2 =>
      match l2 with
      | [] => true
      | _ =>
        match takeLit '.' l2 with
        | none => false
        | some l3 => !l3.isEmpty && l3.all isDigit09

/-- `ISO_DATETIME_RE = ^\d{4}-\d{2}-\d{2}(T\d{2}:\d{2}(:\d{2}(\.\d+)?)?)?$`.
Each optional group starts with a distinct literal, so the regex is
deterministic and this parser is exact. -/
def matchISO (l : List Char) : Bool :=
  match ((((takeDigits 4 l).bind (takeLit '-')).bind (takeDigits 2)).bind
      (takeLit '-')).bind (takeDigits 2) with
  | none => false
  | some rest =>
    match rest with
    | [] => true
    | _ =>
      match (((takeLit 'T' rest).bind (takeDigits 2)).bind (takeLit ':')).bind
          (takeDigits 2) with
      | none => false
      | some rest2 => isoSecondsTail rest2

/-- `DATE_RE = ^\d{2}\d{2}\d{4}$`: exactly eight digits. -/
def matchDATE8 (l : List Char) : Bool :=
  (l.length == 8) && l.all isDigit09

/-- `TIME_RE = \d{1:2}:\d{2}( ([AP]M))?$` with `re.match` anchoring at the
start.  The malformed `{1:2}` is not a valid repeat quantifier, so CPython
treats the five characters `{`, `1`, `:`, `2`, `}` as literals: the pattern
accepts a digit, the literal text `{1:2}`, a colon, two digits, and an
optional ` AM`/` PM` at end of string — and therefore rejects every
ordinary clock time such as `"10:30"`. -/
def matchTIME (l : List Char) : Bool :=
  match l with
  | d :: '{' :: '1' :: ':' :: '2' :: '}' :: ':' :: m1 :: m2 :: rest =>
    isDigit09 d && isDigit09 m1 && isDigit09 m2 &&
      (match rest with
       | [] => true
       | [' ', a, 'M'] => a = 'A' || a = 'P'
       | _ => false)
  | _ => false

/-- A naive (timezone-free) datetime as produced by `dateutil`'s parser.
Fractional seconds are dropped; no claim depends on them. -/
structure NaiveDT where
  year : Nat
  month : Nat
  day : Nat
  hour : Nat
  minute : Nat
  second : Nat
deriving DecidableEq

/-- Parsed date/time values `_extract_datetime` can report. -/
inductive TemporalVal where
  | dt (v : NaiveDT)
  | dateOnly (year month day : Nat)
  | timeOnly (hour minute : Nat)
deriving DecidableEq

/-- Decimal reading of a digit list. -/
def digitsToNat (l : List Char) : Nat :=
  l.foldl (fun a c => a * 10 + (c.toNat - 48)) 0

/-- Gregorian month length. -/
def daysInMonth (y m : Nat) : Nat :=
  if m = 2 then (if (y % 4 = 0 && !(y % 100 = 0)) || y % 400 = 0 then 29 else 28)
  else if m = 4 || m = 6 || m = 9 || m = 11 then 30 else 31

/-- `dateutil.parser.parse` on a string matched by `ISO_DATETIME_RE`: the
components sit at fixed positions; a bare date parses to midnight;
out-of-range components raise `ValueError`. -/
def parseISO (l : List Char) : Except PyErr NaiveDT :=
  let y := digitsToNat (l.take 4)
  let mo := digitsToNat ((l.drop 5).take 2)
  let d := digitsToNat ((l.drop 8).take 2)
  let hms : Nat × Nat × Nat :=
    if l.length ≤ 10 then (0, 0, 0)
    else (digitsToNat ((l.drop 11).take 2), digitsToNat ((l.drop 14).take 2),
      if 19 ≤ l.length then digitsToNat ((l.drop 17).take 2) else 0)
  if 1 ≤ y && 1 ≤ mo && mo ≤ 12 && 1 ≤ d && d ≤ daysInMonth y mo
      && hms.1 ≤ 23 && hms.2.1 ≤ 59 && hms.2.2 ≤ 59 then
    .ok ⟨y, mo, d, hms.1, hms.2.1, hms.2.2⟩
  else .error .valueError

/-- `dateutil.parser.parse` on an eight-digit string: dateutil reads it as
`YYYYMMDD` — not the `MMDDYYYY` the spec describes — swapping the month and
day slots when only that makes a valid month, and raising `ValueError`
otherwise (which it does for every real `MMDDYYYY` rendering, whose year
digits land in the month slot).  Finer dateutil heuristics are not modeled;
no claim exercises this branch. -/
def parse8Digit (l : List Char) : Except PyErr (Nat × Nat × Nat) :=
  let y := digitsToNat (l.take 4)
  let a := digitsToNat ((l.drop 4).take 2)
  let b := digitsToNat (l.drop 6)
  let md : Nat × Nat := if 12 < a && b ≤ 12 then (b, a) else (a, b)
  if 1 ≤ y && 1 ≤ md.1 && md.1 ≤ 12 && 1 ≤ md.2 && md.2 ≤ daysInMonth y md.1 then
    .ok (y, md.1, md.2)
  else .error .valueError

/-- `dateutil.parser.parse` on a string matched by the broken `TIME_RE`:
every such string contains the literal text `{1:2}`, which dateutil cannot
tokenize into a date, so it raises `ValueError`. -/
def parseTimeBranch : List Char → Except PyErr TemporalVal :=
  fun _ => .error .valueError

/-- `_extract_datetime`: classify a string value against the recognizers in
source order — ISO datetime, eight-digit date, clock time.  (`DATETIME_RE`
is defined in the source but never consulted here.)  Non-strings and
unmatched strings report `none`, the "not a date" sentinel; a match hands
the string to `dateutil.parser.parse`, which can itself raise. -/
def extract_datetime (v : Json) : Except PyErr (Option TemporalVal) :=
  match v with
  | .str s =>
    if matchISO s.data then
      match parseISO s.data with
      | .ok ndt => .ok (some (.dt ndt))
      | .error e => .error e
    else if matchDATE8 s.data then
      match parse8Digit s.data with
      | .ok ymd => .ok (some (.dateOnly ymd.1 ymd.2.1 ymd.2.2))
      | .error e => .error e
    else if matchTIME s.data then
      match parseTimeBranch s.data with
      | .ok t => .ok (some t)
      | .error e => .error e
    else .ok none
  | _ => .ok none

-- ===== The result wrapper =====

/-- The designated timezone-aware field names (snake_case, as written in the
source). -/
def TZ_AWARE_FIELDS : List String := ["trans_date_and_time"]

/-- `dateutil.tz.gettz` truthiness as the source uses it: truthy for a
configured valid zone name, and also truthy for `None` (it then yields the
local zone).  Invalid zone names, for which `gettz` returns `None`, are
outside every claim and not modeled. -/
def gettzTruthy (_zoneName : Option String) : Bool := true

/-- `ResultObject._get_date_value(attrname, value)`.  When the timezone
branch is reached, `date_value.astimezone(tzinfo=tz.tzutc())` raises
`TypeError` — `astimezone` has no `tzinfo` keyword argument (and for `date`
values even the preceding `replace(tzinfo=...)` raises), so the branch is
modeled as raising. -/
def get_date_value (gatewayTz : Option String) (attrname : String) (value : Json) :
    Except PyErr (Option TemporalVal) :=
  match extract_datetime value with
  | .error e => .error e
  | .ok none => .ok none
  | .ok (some dv) =>
    if TZ_AWARE_FIELDS.contains attrname && gettzTruthy gatewayTz then
      .error .typeError
    else .ok (some dv)

/-- An element of a wrapped list value: dict elements become child views,
everything else passes through. -/
inductive WrapElem where
  | plain (j : Json)
  | objView (fields : List (String × Json))

/-- A value produced by `ResultObject.__getattr__`. -/
inductive RVal where
  | temporal (t : TemporalVal)
  | objView (fields : List (String × Json))
  | listView (elems : List WrapElem)
  | scalar (j : Json)

/-- `type(o) == dict and ResultObject(o, ...) or o` over a list element. -/
def wrapElem (j : Json) : WrapElem :=
  match j with
  | .obj fs => .objView fs
  | _ => .plain j

/-- The value-shaping tail of `ResultObject.__getattr__` once the key is
resolved: temporal extraction first (parsed date/time objects are truthy,
so a parsed value is returned directly), then dict values wrapped in a
child view, list values wrapped elementwise, anything else returned raw. -/
def wrapValue (gatewayTz : Option String) (key : String) (value : Json) :
    Except PyErr RVal :=
  match get_date_value gatewayTz key value with
  | .error e => .error e
  | .ok (some t) => .ok (.temporal t)
  | .ok none =>
    match value with
    | .obj fs => .ok (.objView fs)
    | .arr xs => .ok (.listView (xs.map wrapElem))
    | _ => .ok (.scalar value)

/-- `ResultObject.__getattr__`: convert the accessor to camelCase; if absent
retry with the first letter upper-cased (PascalCase fallback; an empty
accessor would raise `IndexError` at `key[0]`); raise `AttributeError`
naming the original accessor when both lookups miss.  Note that the key
passed on to `_get_date_value` is the camelCase/PascalCase key. -/
def resultGetattr (gatewayTz : Option String) (data : List (String × Json))
    (attr : String) : Except PyErr RVal :=
  match lookupField data (String.mk (toCamelL attr.data)) with
  | some v => wrapValue gatewayTz (String.mk (toCamelL attr.data)) v
  | none =>
    match toCamelL attr.data with
    | [] => .error .indexError
    | c :: rest =>
      match lookupField data (String.mk (pyUpperChar c :: rest)) with
      | some v => wrapValue gatewayTz (String.mk (pyUpperChar c :: rest)) v
      | none => .error (.attributeError attr)

/-- Python truthiness of a `__getattr__` result, as used by
`if not result.is_success` and `if result.validation_has_failed`. -/
def rvalTruthy : RVal → Bool
  | .temporal _ => true
  | .objView fs => !fs.isEmpty
  | .listView xs => !xs.isEmpty
  | .scalar j => j.truthy

/-- The effects of `ResultObject.__setattr__`, in order.  A non-internal
(no leading underscore) attribute first executes the leftover debugging
statement `import ipdb; ipdb.set_trace()` — `ModuleNotFoundError` when
`ipdb` is absent (it is not among the package's declared dependencies,
which are only `requests`), an interactive breakpoint otherwise — and only
then raises the read-only `AttributeError`.  An underscore-prefixed
attribute is stored on the instance.  `_data` is never mutated. -/
inductive SetStep where
  | importIpdb
  | setTrace
  | raiseReadOnly
  | storeField
deriving DecidableEq

/-- `attr.startswith('_')`. -/
def startsWithUnderscore (s : String) : Bool :=
  match s.data with
  | [] => false
  | c :: _ => c = '_'

def resultSetattrTrace (attr : String) : List SetStep :=
  if startsWithUnderscore attr then [.storeField]
  else [.importIpdb, .setTrace, .raiseReadOnly]

/-- `Result.__init__`: the decoded JSON object document, or — when
`json.loads` raises `JSONDecodeError` (`decoded = none`) — the synthetic
failure document `{'isSuccess': False, 'errorMessages': [response.text]}`.
Construction never raises; non-object JSON bodies are outside the claims. -/
def mkResultFields (decoded : Option (List (String × Json))) (bodyText : String) :
    List (String × Json) :=
  match decoded with
  | some fs => fs
  | none =>
    [("isSuccess", Json.bool false), ("errorMessages", Json.arr [Json.str bodyText])]

-- ===== The error model =====

/-- Python `x[0]` as `GatewayError.__init__` applies it to
`self.error_messages`: list indexing, string indexing (one-character
string), `IndexError` on empty sequences, `KeyError` on dicts (no integer
key `0` can exist here), `TypeError` otherwise. -/
def pyIndex0 (v : RVal) : Except PyErr WrapElem :=
  match v with
  | .listView (e :: _) => .ok e
  | .listView [] => .error .indexError
  | .scalar (.str s) =>
    match s.data with
    | c :: _ => .ok (.plain (.str (String.mk [c])))
    | [] => .error .indexError
  | .objView _ => .error .keyError
  | _ => .error .typeError

/-- The state a successfully constructed `GatewayError` carries. -/
structure GatewayErrObj where
  resultData : List (String × Json)
  error_messages : RVal
  arg0 : WrapElem

/-- `GatewayError.__init__(result)`: re-reads
`result.validation_has_failed`; in the validation branch it reads
`self.validation_failures`, which nothing on this path ever assigned, so
that branch raises `AttributeError`; otherwise it stores
`result.error_messages` and passes `self.error_messages[0]` to
`BaseException.__init__`. -/
def mkGatewayError (gatewayTz : Option String) (data : List (String × Json)) :
    Except PyErr GatewayErrObj :=
  match resultGetattr gatewayTz data "validation_has_failed" with
  | .error e => .error e
  | .ok vh =>
    if rvalTruthy vh then .error (.attributeError "validation_failures")
    else
      match resultGetattr gatewayTz data "error_messages" with
      | .error e => .error e
      | .ok msgs =>
        match pyIndex0 msgs with
        | .error e => .error e
        | .ok a0 => .ok ⟨data, msgs, a0⟩

/-- `GatewayValidationError.__init__(result)`: assigns
`self.validation_failures = result.validation_failures`, then calls
`super(Exception, self).__init__(self.error_messages[0])`.  The
`super(Exception, self)` receiver dispatches past `GatewayError.__init__`
straight to `BaseException`, so `self.error_messages` is never assigned and
evaluating it raises `AttributeError`: construction always fails. -/
def mkGatewayValidationError (gatewayTz : Option String)
    (data : List (String × Json)) : Except PyErr GatewayErrObj :=
  match resultGetattr gatewayTz data "validation_failures" with
  | .error e => .error e
  | .ok _ => .error (.attributeError "error_messages")

/-- What `Client.request` does after obtaining the wrapped response. -/
inductive RequestOutcome where
  | success (data : List (String × Json))
  | raisedValidation (e : GatewayErrObj)
  | raisedGateway (e : GatewayErrObj)

/-- The response-classification tail of `Client.request`: inspect
`result.is_success`; on a falsy flag, raise `GatewayValidationError` when
`result.validation_has_failed` is truthy and `GatewayError` otherwise.
`.error` outcomes are exceptions other than the two gateway errors
(attribute lookup failures and constructor crashes). -/
def classifyResponse (gatewayTz : Option String) (data : List (String × Json)) :
    Except PyErr RequestOutcome :=
  match resultGetattr gatewayTz data "is_success" with
  | .error e => .error e
  | .ok v =>
    if rvalTruthy v then .ok (.success data)
    else
      match resultGetattr gatewayTz data "validation_has_failed" with
      | .error e => .error e
      | .ok vh =>
        if rvalTruthy vh then
          match mkGatewayValidationError gatewayTz data with
          | .error e => .error e
          | .ok eo => .ok (.raisedValidation eo)
        else
          match mkGatewayError gatewayTz data with
          | .error e => .error e
          | .ok eo => .ok (.raisedGateway eo)

-- ===== The client: URLs, operations, query dates =====

/-- `Client.url`: exactly two fixed domains selected by `test_mode`. -/
def clientUrl (testMode : Bool) : String :=
  "https://"
    ++ (if testMode then "secure-v.goemerchant.com" else "secure.1stpaygateway.net")
    ++ "/secure/RestGW/Gateway/Transaction/"

/-- `urljoin(self.url, action)`: the base URL ends in `/` and every action
name is a plain relative segment, so the join is concatenation. -/
def requestUrl (testMode : Bool) (action : String) : String :=
  clientUrl testMode ++ action

/-- The named operation methods of `Client`. -/
inductive Operation where
  | create_auth
  | create_auth_using_vault
  | create_sale
  | create_sale_vault
  | create_credit
  | create_credit_retail_only
  | create_credit_retail_only_using_vault
  | perform_void
  | create_re_auth
  | create_re_sale
  | create_re_debit
  | query
  | close_batch
  | perform_settle
  | apply_tip_adjust
  | perform_ach_void
  | create_ach_credit
  | create_ach_debit
  | create_ach_credit_using_vault
  | create_ach_debit_using_vault
  | get_ach_categories
  | create_ach_categories
  | delete_ach_categories
  | setup_ach_store
  | create_vault_container
  | create_vault_ach_record
  | create_vault_credit_card_record
  | create_vault_shipping_record
  | delete_vault_container_and_all_assc_data
  | delete_vault_ach_record
  | delete_vault_credit_card_record
  | delete_vault_shipping_record
  | update_vault_container
  | update_vault_ach_record
  | update_vault_credit_card_record
  | update_vault_shipping_record
  | query_vault
  | query_vault_for_credit_card_records
  | query_vault_for_ach_records
  | query_vault_for_shipping_records
  | modify_recurring
  | submit_acct_updater
  | submit_acct_updater_vault
  | get_acct_updater_return
deriving DecidableEq

/-- The action string each operation method passes to `Client.request`,
exactly as written in the source (note `create_auth_using_vault` passes
the misspelled `"AuthUsingValut"`). -/
def actionName : Operation → String
  | .create_auth => "Auth"
  | .create_auth_using_vault => "AuthUsingValut"
  | .create_sale => "Sale"
  | .create_sale_vault => "SaleUsingVault"
  | .create_credit => "Credit"
  | .create_credit_retail_only => "CreditRetailOnly"
  | .create_credit_retail_only_using_vault => "CreditRetailOnlyUsingVault"
  | .perform_void => "Void"
  | .create_re_auth => "ReAuth"
  | .create_re_sale => "ReSale"
  | .create_re_debit => "ReDebit"
  | .query => "Query"
  | .close_batch => "CloseBatch"
  | .perform_settle => "Settle"
  | .apply_tip_adjust => "TipAdjust"
  | .perform_ach_void => "AchVoid"
  | .create_ach_credit => "AchCredit"
  | .create_ach_debit => "AchDebit"
  | .create_ach_credit_using_vault => "AchCreditUsingVault"
  | .create_ach_debit_using_vault => "AchDebitUsingVault"
  | .get_ach_categories => "AchGetCategories"
  | .create_ach_categories => "AchCreateCategory"
  | .delete_ach_categories => "AchDeleteCategory"
  | .setup_ach_store => "AchSetupStore"
  | .create_vault_container => "VaultCreateContainer"
  | .create_vault_ach_record => "VaultCreateAchRecord"
  | .create_vault_credit_card_record => "VaultCreateCCRecord"
  | .create_vault_shipping_record => "VaultCreateShippingRecord"
  | .delete_vault_container_and_all_assc_data => "VaultDeleteContainerAndAllAsscData"
  | .delete_vault_ach_record => "VaultDeleteAchRecord"
  | .delete_vault_credit_card_record => "VaultDeleteCCRecord"
  | .delete_vault_shipping_record => "VaultDeleteShippingRecord"
  | .update_vault_container => "VaultUpdateContainer"
  | .update_vault_ach_record => "VaultUpdateAchRecord"
  | .update_vault_credit_card_record => "VaultUpdateCCRecord"
  | .update_vault_shipping_record => "VaultUpdateShippingRecord"
  | .query_vault => "VaultQueryVault"
  | .query_vault_for_credit_card_records => "VaultQueryCCRecord"
  | .query_vault_for_ach_records => "VaultQueryAchRecord"
  | .query_vault_for_shipping_records => "VaultQueryShippingRecord"
  | .modify_recurring => "RecurringModify"
  | .submit_acct_updater => "AccountUpdaterSubmit"
  | .submit_acct_updater_vault => "AccountUpdaterSubmitVault"
  | .get_acct_updater_return => "AccountUpdaterReturn"

/-- Every operation, listed once. -/
def allOperations : List Operation :=
  [.create_auth, .create_auth_using_vault, .create_sale, .create_sale_vault,
   .create_credit, .create_credit_retail_only, .create_credit_retail_only_using_vault,
   .perform_void, .create_re_auth, .create_re_sale, .create_re_debit, .query,
   .close_batch, .perform_settle, .apply_tip_adjust, .perform_ach_void,
   .create_ach_credit, .create_ach_debit, .create_ach_credit_using_vault,
   .create_ach_debit_using_vault, .get_ach_categories, .create_ach_categories,
   .delete_ach_categories, .setup_ach_store, .create_vault_container,
   .create_vault_ach_record, .create_vault_credit_card_record,
   .create_vault_shipping_record, .delete_vault_container_and_all_assc_data,
   .delete_vault_ach_record, .delete_vault_credit_card_record,
   .delete_vault_shipping_record, .update_vault_container, .update_vault_ach_record,
   .update_vault_credit_card_record, .update_vault_shipping_record, .query_vault,
   .query_vault_for_credit_card_records, .query_vault_for_ach_records,
   .query_vault_for_shipping_records, .modify_recurring, .submit_acct_updater,
   .submit_acct_updater_vault, .get_acct_updater_return]

/-- Modelled from the spec: the fixed enumeration of action names in §6 of
the specification ("Operations surface"), each of which is the POST path
segment of the same name. -/
def specActionNames : List String :=
  ["Auth", "AuthUsingVault", "Sale", "SaleUsingVault", "Credit",
   "CreditRetailOnly", "CreditRetailOnlyUsingVault", "Void", "ReAuth", "ReSale",
   "ReDebit", "Query", "CloseBatch", "Settle", "TipAdjust", "AchVoid",
   "AchCredit", "AchDebit", "AchCreditUsingVault", "AchDebitUsingVault",
   "AchGetCategories", "AchCreateCategory", "AchDeleteCategory", "AchSetupStore",
   "VaultCreateContainer", "VaultCreateAchRecord", "VaultCreateCCRecord",
   "VaultCreateShippingRecord", "VaultDeleteContainerAndAllAsscData",
   "VaultDeleteAchRecord", "VaultDeleteCCRecord", "VaultDeleteShippingRecord",
   "VaultUpdateContainer", "VaultUpdateAchRecord", "VaultUpdateCCRecord",
   "VaultUpdateShippingRecord", "VaultQueryVault", "VaultQueryCCRecord",
   "VaultQueryAchRecord", "VaultQueryShippingRecord", "RecurringModify",
   "AccountUpdaterSubmit", "AccountUpdaterSubmitVault", "AccountUpdaterReturn"]

-- ===== Query date-parameter expansion =====

/-- A Python `datetime.datetime`; the timezone is carried as a UTC offset in
minutes (`none` = naive). -/
structure PyDateTime where
  year : Int
  month : Int
  day : Int
  hour : Int
  minute : Int
  second : Int
  micro : Int
  tzOffsetMinutes : Option Int
deriving DecidableEq

/-- A value passed as `start_date`/`end_date`: a bare `datetime.date` or a
full `datetime.datetime`. -/
inductive PyDateOrDateTime where
  | d (year month day : Int)
  | dt (v : PyDateTime)
deriving DecidableEq

/-- Days since 1970-01-01 of a proleptic Gregorian date (floor-division form
of the standard `days_from_civil` algorithm). -/
def daysFromCivil (y m d : Int) : Int :=
  let y2 := if m ≤ 2 then y - 1 else y
  let era := y2.fdiv 400
  let yoe := y2 - era * 400
  let mp := (m + 9).emod 12
  let doy := (153 * mp + 2).fdiv 5 + d - 1
  let doe := yoe * 365 + yoe.fdiv 4 - yoe.fdiv 100 + doy
  era * 146097 + doe - 719468

/-- Inverse of `daysFromCivil` (the standard `civil_from_days`). -/
def civilFromDays (z0 : Int) : Int × Int × Int :=
  let z := z0 + 719468
  let era := z.fdiv 146097
  let doe := z - era * 146097
  let yoe := (doe - doe.fdiv 1460 + doe.fdiv 36524 - doe.fdiv 146096).fdiv 365
  let y := yoe + era * 400
  let doy := doe - (365 * yoe + yoe.fdiv 4 - yoe.fdiv 100)
  let mp := (5 * doy + 2).fdiv 153
  let d := doy - (153 * mp + 2).fdiv 5 + 1
  let m := mp + (if mp < 10 then 3 else -9)
  (if m ≤ 2 then y + 1 else y, m, d)

/-- `dt.astimezone(tz.tzutc())`: shift the timestamp by its UTC offset and
stamp it UTC.  (The source only calls this on timezone-aware values.) -/
def astimezoneUTC (v : PyDateTime) : PyDateTime :=
  match v.tzOffsetMinutes with
  | none => v
  | some off =>
    let total := daysFromCivil v.year v.month v.day * 1440 + v.hour * 60
      + v.minute - off
    let days := total.fdiv 1440
    let rem := total.emod 1440
    let c := civilFromDays days
    ⟨c.1, c.2.1, c.2.2, rem.fdiv 60, rem.emod 60, v.second, v.micro, some 0⟩

/-- `_get_date_params(prefix, dt)`: a bare date is combined with
start-of-day (`datetime.min.time()`) or end-of-day (`datetime.max.time()`,
23:59:59.999999) according to the boundary; a naive value is labeled with
the system-local timezone — threaded here explicitly as
`localOffsetMinutes`, per the spec's design note on the implicit global
timezone dependence — converted to UTC, and split into the six query
fields on a 12-hour clock (`hour % 12`, `AM` iff `hour < 12`). -/
def get_date_params (localOffsetMinutes : Int) (pfx : String)
    (dtv : PyDateOrDateTime) : List (String × Json) :=
  let dt0 : PyDateTime :=
    match dtv with
    | .d y m day =>
      if pfx = "end" then ⟨y, m, day, 23, 59, 59, 999999, none⟩
      else ⟨y, m, day, 0, 0, 0, 0, none⟩
    | .dt v => v
  let dt1 :=
    if dt0.tzOffsetMinutes = none then
      { dt0 with tzOffsetMinutes := some localOffsetMinutes }
    else dt0
  let utc := astimezoneUTC dt1
  [("query_" ++ pfx ++ "_year", Json.int utc.year),
   ("query_" ++ pfx ++ "_month", Json.int utc.month),
   ("query_" ++ pfx ++ "_day", Json.int utc.day),
   ("query_" ++ pfx ++ "_hour", Json.int (utc.hour % 12)),
   ("query_" ++ pfx ++ "_minute", Json.int utc.minute),
   ("query_" ++ pfx ++ "_AMPM", Json.str (if utc.hour < 12 then "AM" else "PM"))]

/-- The date-handling prologue of `Client.query`: pop `start_date` and
`end_date` from the keyword set; if either is present, set
`query_time_zone_offset = 0`; then merge the six expanded fields for each
present boundary, in dict insertion order. -/
def queryParams (localOffsetMinutes : Int)
    (startDate endDate : Option PyDateOrDateTime)
    (otherData : List (String × Json)) : List (String × Json) :=
  let d1 :=
    if startDate.isSome || endDate.isSome then
      otherData ++ [("query_time_zone_offset", Json.int 0)]
    else otherData
  let d2 :=
    match startDate with
    | some sd => d1 ++ get_date_params localOffsetMinutes "start" sd
    | none => d1
  match endDate with
  | some ed => d2 ++ get_date_params localOffsetMinutes "end" ed
  | none => d2

-- ===== Theorems =====

theorem toNat_ofNat_valid (n : Nat) (h : n.isValidChar) : (Char.ofNat n).toNat = n := by
  simp [Char.ofNat, h, Char.toNat, Char.ofNatAux, UInt32.toNat, BitVec.toNat_ofNatLt]

theorem pyUpper_toNat (c : Char) (h : isLowerAZ c = true) :
    (pyUpperChar c).toNat = c.toNat - 32 := by
  have h2 := h
  simp only [isLowerAZ, Bool.and_eq_true, decide_eq_true_eq] at h2
  have hv : (c.toNat - 32).isValidChar := by
    constructor
    omega
  unfold pyUpperChar
  rw [if_pos h]
  exact toNat_ofNat_valid _ hv

theorem pyLower_pyUpper (c : Char) (h : isLowerAZ c = true) :
    pyLowerChar (pyUpperChar c) = c := by
  have h2 := h
  simp only [isLowerAZ, Bool.and_eq_true, decide_eq_true_eq] at h2
  unfold pyLowerChar
  rw [show isUpperAZ (pyUpperChar c) = true by
        simp only [isUpperAZ, pyUpper_toNat c h, Bool.and_eq_true, decide_eq_true_eq]
        omega]
  rw [if_pos rfl, pyUpper_toNat c h]
  have h3 : c.toNat - 32 + 32 = c.toNat := by omega
  rw [h3, Char.ofNat_toNat]

theorem isUpperAZ_pyUpper (c : Char) (h : isLowerAZ c = true) :
    isUpperAZ (pyUpperChar c) = true := by
  have h2 := h
  simp only [isLowerAZ, Bool.and_eq_true, decide_eq_true_eq] at h2
  simp only [isUpperAZ, pyUpper_toNat c h, Bool.and_eq_true, decide_eq_true_eq]
  omega

theorem upper_not_lower (c : Char) (h : isUpperAZ c = true) : isLowerAZ c = false := by
  cases hl : isLowerAZ c
  · rfl
  · exfalso
    simp only [isUpperAZ, Bool.and_eq_true, decide_eq_true_eq] at h
    simp only [isLowerAZ, Bool.and_eq_true, decide_eq_true_eq] at hl
    omega

theorem lowerOrDigit_not_upper (c : Char) (h : lowerOrDigit c = true) :
    isUpperAZ c = false := by
  cases hu : isUpperAZ c
  · rfl
  · exfalso
    simp only [lowerOrDigit, isLowerAZ, isDigit09, Bool.or_eq_true, Bool.and_eq_true,
      decide_eq_true_eq] at h
    simp only [isUpperAZ, Bool.and_eq_true, decide_eq_true_eq] at hu
    omega

theorem lowerOrDigit_of_lower (c : Char) (h : isLowerAZ c = true) :
    lowerOrDigit c = true := by
  simp [lowerOrDigit, h]

theorem lowerOrDigit_not_newline (c : Char) (h : lowerOrDigit c = true) :
    (c != '\n') = true := by
  simp only [bne_iff_ne, ne_eq]
  intro he
  subst he
  exact absurd h (by decide)

theorem lowerOrDigit_ne_us (c : Char) (h : lowerOrDigit c = true) : ¬(c = '_') := by
  intro he
  subst he
  exact absurd h (by decide)

theorem lowerOrDigit_pyUpper (c : Char) (h : isLowerAZ c = true) :
    lowerOrDigit (pyUpperChar c) = false := by
  have h2 := h
  simp only [isLowerAZ, Bool.and_eq_true, decide_eq_true_eq] at h2
  cases hu : lowerOrDigit (pyUpperChar c)
  · rfl
  · exfalso
    simp only [lowerOrDigit, isLowerAZ, isDigit09, pyUpper_toNat c h, Bool.or_eq_true,
      Bool.and_eq_true, decide_eq_true_eq] at hu
    omega

theorem lower_pyUpper_false (c : Char) (h : isLowerAZ c = true) :
    isLowerAZ (pyUpperChar c) = false :=
  upper_not_lower _ (isUpperAZ_pyUpper c h)

theorem pyLower_fix (c : Char) (h : isUpperAZ c = false) : pyLowerChar c = c := by
  unfold pyLowerChar
  rw [if_neg (by simp [h])]

theorem pyLower_fix_lowerOrDigit (c : Char) (h : lowerOrDigit c = true) :
    pyLowerChar c = c :=
  pyLower_fix c (lowerOrDigit_not_upper c h)

theorem inAZband_of_lower (c : Char) (h : isLowerAZ c = true) : inAZband c = true := by
  simp only [isLowerAZ, Bool.and_eq_true, decide_eq_true_eq] at h
  simp only [inAZband, Bool.and_eq_true, decide_eq_true_eq]
  omega

-- Unfolding lemmas for the substitution scanners.

theorem camelAux_cons (c : Char) (l : List Char) (h : ¬(c = '_')) :
    camelAux (c :: l) = c :: camelAux l := by
  rw [camelAux.eq_def]
  simp [h]

theorem camelAux_us (d : Char) (l : List Char) (h : inAZband d = true) :
    camelAux ('_' :: d :: l) = pyUpperChar d :: camelAux l := by
  rw [camelAux.eq_def]
  simp [h]

theorem sub1_skip_a (c1 c2 : Char) (l : List Char) (h : isUpperAZ c2 = false) :
    sub1 (c1 :: c2 :: l) = c1 :: sub1 (c2 :: l) := by
  match l with
  | [] => simp [sub1.eq_def]
  | c3 :: l2 => simp [sub1, h]

theorem sub1_skip_b (c1 c2 c3 : Char) (l : List Char) (h : isLowerAZ c3 = false) :
    sub1 (c1 :: c2 :: c3 :: l) = c1 :: sub1 (c2 :: c3 :: l) := by
  simp [sub1, h]

theorem sub1_hit (c1 c2 c3 : Char) (l : List Char) (h1 : (c1 != '\n') = true)
    (h2 : isUpperAZ c2 = true) (h3 : isLowerAZ c3 = true) :
    sub1 (c1 :: c2 :: c3 :: l) =
      c1 :: '_' :: c2 :: c3 :: (lowerRun l ++ sub1 (lowerRest l)) := by
  simp [sub1, h1, h2, h3]

theorem sub2_skip_a (c1 c2 : Char) (l : List Char) (h : lowerOrDigit c1 = false) :
    sub2 (c1 :: c2 :: l) = c1 :: sub2 (c2 :: l) := by
  have h2 : (isLowerAZ c1 || isDigit09 c1) = false := by
    simpa [lowerOrDigit] using h
  simp [sub2, h2]

theorem sub2_skip_b (c1 c2 : Char) (l : List Char) (h : isUpperAZ c2 = false) :
    sub2 (c1 :: c2 :: l) = c1 :: sub2 (c2 :: l) := by
  simp [sub2, h]

theorem sub2_hit (c1 c2 : Char) (l : List Char) (h1 : lowerOrDigit c1 = true)
    (h2 : isUpperAZ c2 = true) :
    sub2 (c1 :: c2 :: l) = c1 :: '_' :: c2 :: sub2 l := by
  have h3 : (isLowerAZ c1 || isDigit09 c1) = true := by
    simpa [lowerOrDigit] using h1
  simp [sub2, h3, h2]

-- Facts about the greedy lowercase run.

theorem lowerRun_cons (d : Char) (l : List Char) :
    lowerRun (d :: l) = if isLowerAZ d then d :: lowerRun l else [] := rfl

theorem lowerRest_cons (d : Char) (l : List Char) :
    lowerRest (d :: l) = if isLowerAZ d then lowerRest l else d :: l := rfl

theorem lowerRest_head_not_lower (l : List Char) (c : Char) (r : List Char)
    (h : lowerRest l = c :: r) : isLowerAZ c = false := by
  induction l with
  | nil => simp [lowerRest] at h
  | cons d l2 ih =>
    by_cases hd : isLowerAZ d = true
    · rw [lowerRest_cons, if_pos hd] at h
      exact ih h
    · rw [lowerRest_cons, if_neg hd] at h
      cases h
      simpa using hd

theorem lowerRest_nil_iff (l : List Char) :
    lowerRest l = [] ↔ l.all isLowerAZ = true := by
  induction l with
  | nil => simp [lowerRest]
  | cons d l2 ih =>
    by_cases hd : isLowerAZ d = true
    · simp [lowerRest_cons, hd, ih]
    · simp [lowerRest_cons, hd]

theorem lowerRun_append_of_rest_ne (l m : List Char) (h : lowerRest l ≠ []) :
    lowerRun (l ++ m) = lowerRun l ∧ lowerRest (l ++ m) = lowerRest l ++ m := by
  induction l with
  | nil => simp [lowerRest] at h
  | cons d l2 ih =>
    by_cases hd : isLowerAZ d = true
    · rw [lowerRest_cons, if_pos hd] at h
      have h2 := ih h
      rw [List.cons_append, lowerRun_cons, if_pos hd, lowerRest_cons, if_pos hd,
        lowerRun_cons, if_pos hd, lowerRest_cons, if_pos hd, h2.1, h2.2]
      exact ⟨rfl, rfl⟩
    · rw [List.cons_append, lowerRun_cons, if_neg hd, lowerRest_cons, if_neg hd,
        lowerRun_cons, if_neg hd, lowerRest_cons, if_neg hd]
      exact ⟨rfl, rfl⟩

theorem lowerRun_append_of_all (l m : List Char) (h : l.all isLowerAZ = true) :
    lowerRun (l ++ m) = l ++ lowerRun m ∧ lowerRest (l ++ m) = lowerRest m := by
  induction l with
  | nil => simp
  | cons d l2 ih =>
    simp only [List.all_cons, Bool.and_eq_true] at h
    have h2 := ih h.2
    rw [List.cons_append, lowerRun_cons, if_pos h.1, lowerRest_cons, if_pos h.1,
      h2.1, h2.2]
    exact ⟨rfl, rfl⟩

theorem allLowerDigit_lowerRest (l : List Char) (h : allLowerDigit l = true) :
    allLowerDigit (lowerRest l) = true := by
  induction l with
  | nil =>
    simp only [lowerRest]
    exact h
  | cons d l2 ih =>
    simp only [allLowerDigit, List.all_cons, Bool.and_eq_true] at h
    by_cases hd : isLowerAZ d = true
    · rw [lowerRest_cons, if_pos hd]
      exact ih h.2
    · rw [lowerRest_cons, if_neg hd]
      simp [allLowerDigit, h.1, h.2]

theorem allLowerDigit_cons (c : Char) (l : List Char) :
    allLowerDigit (c :: l) = (lowerOrDigit c && allLowerDigit l) := rfl

theorem camel_spec (ss : List (Char × List Char)) (p : List Char)
    (hp : allLowerDigit p = true) (hss : goodSegs ss = true) :
    camelAux (p ++ segJoin ss) = p ++ segCamel ss := by
  match p with
  | c :: p2 =>
    rw [allLowerDigit_cons, Bool.and_eq_true] at hp
    rw [List.cons_append, camelAux_cons c _ (lowerOrDigit_ne_us c hp.1),
      camel_spec ss p2 hp.2 hss, List.cons_append]
  | [] =>
    match ss with
    | [] => simp [segJoin, segCamel, camelAux]
    | (h, t) :: ss2 =>
      simp only [goodSegs, Bool.and_eq_true] at hss
      obtain ⟨⟨⟨hh, ht⟩, _⟩, hss2⟩ := hss
      rw [List.nil_append, segJoin, camelAux_us h _ (inAZband_of_lower h hh),
        camel_spec ss2 t ht hss2, List.nil_append, segCamel]
termination_by (ss.length, p.length)

theorem segCamel_length_cons (h : Char) (t : List Char) (ss : List (Char × List Char)) :
    (segCamel ((h, t) :: ss)).length = 1 + t.length + (segCamel ss).length := by
  simp [segCamel]
  omega

theorem sub1_spec_aux (n : Nat) : ∀ (ss : List (Char × List Char)) (flag : Bool)
    (p : List Char), goodSegs ss = true →
    (flag = true → p ≠ [] ∧ allLowerDigit p = true) →
    (flag = false → p = []) →
    p.length + (segCamel ss).length ≤ n →
    sub1 (p ++ segCamel ss) = p ++ bOut flag ss := by
  induction n with
  | zero =>
    intro ss flag p hss hpt hpf hn
    cases flag with
    | true =>
      obtain ⟨hpne, _⟩ := hpt rfl
      rcases p with _ | ⟨x, p2⟩
      · exact absurd rfl hpne
      · simp at hn
    | false =>
      rw [hpf rfl, List.nil_append, List.nil_append]
      rcases ss with _ | ⟨⟨h, t⟩, ss2⟩
      · simp [segCamel, bOut, sub1]
      · rw [segCamel_length_cons] at hn
        omega
  | succ n ih =>
    intro ss flag p hss hpt hpf hn
    cases flag with
    | false =>
      rw [hpf rfl, List.nil_append, List.nil_append]
      rcases ss with _ | ⟨⟨h, t⟩, ss2⟩
      · simp [segCamel, bOut, sub1]
      · simp only [goodSegs, Bool.and_eq_true] at hss
        obtain ⟨⟨⟨hh, ht⟩, hne⟩, hss2⟩ := hss
        rw [segCamel_length_cons] at hn
        rcases t with _ | ⟨c3, t2⟩
        · have hnil : ss2 = [] := by simpa using hne
          subst hnil
          simp [segCamel, bOut, sub1.eq_def]
        · rw [allLowerDigit_cons, Bool.and_eq_true] at ht
          rw [segCamel, List.cons_append,
            sub1_skip_a _ _ _ (lowerOrDigit_not_upper c3 ht.1), ← List.cons_append,
            ih ss2 true (c3 :: t2) hss2
              (fun _ => ⟨List.cons_ne_nil c3 t2,
                by rw [allLowerDigit_cons]; simp [ht.1, ht.2]⟩)
              (fun hc => nomatch hc) (by simp at hn ⊢; omega)]
          rw [bOut, List.cons_append]
    | true =>
      obtain ⟨hpne, hpall⟩ := hpt rfl
      rcases p with _ | ⟨x, p2⟩
      · exact absurd rfl hpne
      rw [allLowerDigit_cons, Bool.and_eq_true] at hpall
      rcases p2 with _ | ⟨q, p3⟩
      · rcases ss with _ | ⟨⟨h, t⟩, ss2⟩
        · simp [segCamel, bOut, sub1.eq_def]
        · simp only [goodSegs, Bool.and_eq_true] at hss
          obtain ⟨⟨⟨hh, ht⟩, hne⟩, hss2⟩ := hss
          rw [segCamel_length_cons] at hn
          rcases t with _ | ⟨c3, t2⟩
          · have hnil : ss2 = [] := by simpa using hne
            subst hnil
            simp [segCamel, bOut, sub1.eq_def]
          · rw [allLowerDigit_cons, Bool.and_eq_true] at ht
            by_cases hc3 : isLowerAZ c3 = true
            · rw [List.singleton_append, segCamel, List.cons_append,
                sub1_hit x _ c3 _ (lowerOrDigit_not_newline x hpall.1)
                  (isUpperAZ_pyUpper h hh) hc3]
              by_cases hrest : lowerRest t2 = []
              · have hall : t2.all isLowerAZ = true := (lowerRest_nil_iff t2).mp hrest
                have hla := lowerRun_append_of_all t2 (segCamel ss2) hall
                rw [hla.1, hla.2]
                rcases ss2 with _ | ⟨⟨h2, t3⟩, ss3⟩
                · simp [segCamel, lowerRun, lowerRest, sub1, bOut, hall, hc3]
                · have hs2 := hss2
                  simp only [goodSegs, Bool.and_eq_true] at hs2
                  have hUh2 : isLowerAZ (pyUpperChar h2) = false :=
                    lower_pyUpper_false h2 hs2.1.1.1
                  have hrec := ih ((h2, t3) :: ss3) false [] hss2
                    (fun hc => nomatch hc) (fun _ => rfl)
                    (by rw [segCamel_length_cons] at hn ⊢; simp at hn ⊢; omega)
                  rw [List.nil_append, List.nil_append] at hrec
                  simp only [segCamel] at hrec
                  rw [show segCamel ((h2, t3) :: ss3)
                        = pyUpperChar h2 :: (t3 ++ segCamel ss3) from rfl,
                    lowerRun_cons, if_neg (by simp [hUh2]),
                    lowerRest_cons, if_neg (by simp [hUh2]), hrec]
                  simp [bOut, hc3, hall, segCamel]
              · have hla := lowerRun_append_of_rest_ne t2 (segCamel ss2) hrest
                rw [hla.1, hla.2]
                have hlr := lowerRest_length t2
                have hrec := ih ss2 true (lowerRest t2) hss2
                  (fun _ => ⟨hrest, allLowerDigit_lowerRest t2 ht.2⟩)
                  (fun hc => nomatch hc) (by simp at hn ⊢; omega)
                rw [hrec]
                have hflag : t2.all isLowerAZ = false := by
                  cases hv : t2.all isLowerAZ
                  · rfl
                  · exact absurd ((lowerRest_nil_iff t2).mpr hv) hrest
                rw [← List.append_assoc, lowerRun_append_lowerRest]
                simp [bOut, hc3, hflag]
            · have hc3f : isLowerAZ c3 = false := by simpa using hc3
              rw [List.singleton_append, segCamel, List.cons_append,
                sub1_skip_b x _ c3 _ hc3f,
                sub1_skip_a _ c3 _ (lowerOrDigit_not_upper c3 ht.1),
                ← List.cons_append,
                ih ss2 true (c3 :: t2) hss2
                  (fun _ => ⟨List.cons_ne_nil c3 t2,
                    by rw [allLowerDigit_cons]; simp [ht.1, ht.2]⟩)
                  (fun hc => nomatch hc) (by simp at hn ⊢; omega)]
              simp [bOut, hc3f, List.cons_append]
      · have hq : lowerOrDigit q = true := by
          have h2 := hpall.2
          rw [allLowerDigit_cons, Bool.and_eq_true] at h2
          exact h2.1
        rw [List.cons_append, List.cons_append,
          sub1_skip_a x q _ (lowerOrDigit_not_upper q hq), ← List.cons_append,
          ih ss true (q :: p3) hss
            (fun _ => ⟨List.cons_ne_nil q p3, hpall.2⟩) (fun hc => nomatch hc)
            (by simp at hn ⊢; omega)]
        simp [List.cons_append]

theorem sub1_spec (ss : List (Char × List Char)) (flag : Bool) (p : List Char)
    (hss : goodSegs ss = true)
    (hpt : flag = true → p ≠ [] ∧ allLowerDigit p = true)
    (hpf : flag = false → p = []) :
    sub1 (p ++ segCamel ss) = p ++ bOut flag ss :=
  sub1_spec_aux (p.length + (segCamel ss).length) ss flag p hss hpt hpf (Nat.le_refl _)

theorem sub2_spec_aux (n : Nat) : ∀ (ss : List (Char × List Char)) (flag : Bool)
    (p : List Char), goodSegs ss = true → p ≠ [] → allLowerDigit p = true →
    p.length + (bOut flag ss).length ≤ n →
    sub2 (p ++ bOut flag ss) = p ++ segSnakeOut ss := by
  induction n with
  | zero =>
    intro ss flag p hss hpne hpall hn
    rcases p with _ | ⟨x, p2⟩
    · exact absurd rfl hpne
    · simp at hn
  | succ n ih =>
    intro ss flag p hss hpne hpall hn
    rcases p with _ | ⟨x, p2⟩
    · exact absurd rfl hpne
    rw [allLowerDigit_cons, Bool.and_eq_true] at hpall
    rcases p2 with _ | ⟨q, p3⟩
    · rcases ss with _ | ⟨⟨h, t⟩, ss2⟩
      · simp [bOut, segSnakeOut, sub2.eq_def]
      · simp only [goodSegs, Bool.and_eq_true] at hss
        obtain ⟨⟨⟨hh, ht⟩, hne⟩, hss2⟩ := hss
        cases flag with
        | false =>
          rw [show bOut false ((h, t) :: ss2)
                = pyUpperChar h :: (t ++ bOut true ss2) from rfl,
            List.singleton_append,
            sub2_hit x _ _ hpall.1 (isUpperAZ_pyUpper h hh)]
          rcases t with _ | ⟨u, t2⟩
          · have hnil : ss2 = [] := by simpa using hne
            subst hnil
            simp [bOut, segSnakeOut, sub2]
          · rw [ih ss2 true (u :: t2) hss2 (List.cons_ne_nil u t2) ht
              (by simp [bOut] at hn ⊢; omega)]
            simp [segSnakeOut]
        | true =>
          rcases t with _ | ⟨c3, t2⟩
          · have hnil : ss2 = [] := by simpa using hne
            subst hnil
            rw [show bOut true ((h, ([] : List Char)) :: ([] : List (Char × List Char)))
                  = [pyUpperChar h] from rfl,
              List.singleton_append,
              sub2_hit x _ _ hpall.1 (isUpperAZ_pyUpper h hh)]
            simp [segSnakeOut, sub2]
          · rw [allLowerDigit_cons, Bool.and_eq_true] at ht
            by_cases hc3 : isLowerAZ c3 = true
            · rw [show bOut true ((h, c3 :: t2) :: ss2)
                    = '_' :: pyUpperChar h :: c3 ::
                        (t2 ++ bOut (!t2.all isLowerAZ) ss2) from by simp [bOut, hc3],
                List.singleton_append,
                sub2_skip_b x '_' _ (by decide),
                sub2_skip_a '_' _ _ (by decide),
                sub2_skip_a _ c3 _ (lowerOrDigit_pyUpper h hh),
                ← List.cons_append,
                ih ss2 (!t2.all isLowerAZ) (c3 :: t2) hss2 (List.cons_ne_nil c3 t2)
                  (by rw [allLowerDigit_cons]; simp [ht.1, ht.2])
                  (by simp [bOut, hc3] at hn ⊢; omega)]
              simp [segSnakeOut, List.cons_append]
            · have hc3f : isLowerAZ c3 = false := by simpa using hc3
              rw [show bOut true ((h, c3 :: t2) :: ss2)
                    = pyUpperChar h :: c3 :: (t2 ++ bOut true ss2) from by
                      simp [bOut, hc3f],
                List.singleton_append,
                sub2_hit x _ _ hpall.1 (isUpperAZ_pyUpper h hh),
                ← List.cons_append,
                ih ss2 true (c3 :: t2) hss2 (List.cons_ne_nil c3 t2)
                  (by rw [allLowerDigit_cons]; simp [ht.1, ht.2])
                  (by simp [bOut, hc3f] at hn ⊢; omega)]
              simp [segSnakeOut, List.cons_append]
    · have hq : lowerOrDigit q = true := by
        have h2 := hpall.2
        rw [allLowerDigit_cons, Bool.and_eq_true] at h2
        exact h2.1
      rw [List.cons_append, List.cons_append,
        sub2_skip_b x q _ (lowerOrDigit_not_upper q hq), ← List.cons_append,
        ih ss flag (q :: p3) hss (List.cons_ne_nil q p3) hpall.2
          (by simp at hn ⊢; omega)]
      simp [List.cons_append]

theorem sub2_spec (ss : List (Char × List Char)) (flag : Bool) (p : List Char)
    (hss : goodSegs ss = true) (hpne : p ≠ []) (hpall : allLowerDigit p = true) :
    sub2 (p ++ bOut flag ss) = p ++ segSnakeOut ss :=
  sub2_spec_aux (p.length + (bOut flag ss).length) ss flag p hss hpne hpall
    (Nat.le_refl _)

theorem map_pyLower_id (l : List Char) (h : allLowerDigit l = true) :
    l.map pyLowerChar = l := by
  induction l with
  | nil => rfl
  | cons c l2 ih =>
    rw [allLowerDigit_cons, Bool.and_eq_true] at h
    rw [List.map_cons, pyLower_fix_lowerOrDigit c h.1, ih h.2]

theorem map_pyLower_segSnakeOut (ss : List (Char × List Char))
    (hss : goodSegs ss = true) : (segSnakeOut ss).map pyLowerChar = segJoin ss := by
  induction ss with
  | nil => simp [segSnakeOut, segJoin]
  | cons hd ss2 ih =>
    obtain ⟨h, t⟩ := hd
    simp only [goodSegs, Bool.and_eq_true] at hss
    obtain ⟨⟨⟨hh, ht⟩, _⟩, hss2⟩ := hss
    simp only [segSnakeOut, segJoin, List.map_cons, List.map_append]
    rw [pyLower_pyUpper h hh, ih hss2, map_pyLower_id t ht,
      show pyLowerChar '_' = '_' from by decide]

theorem sub1_pair (c d : Char) : sub1 [c, d] = [c, d] := by
  simp [sub1.eq_def]

theorem sub1_single (c : Char) : sub1 [c] = [c] := by
  simp [sub1.eq_def]

theorem sub2_single (c : Char) : sub2 [c] = [c] := by
  simp [sub2.eq_def]

theorem sub2_nil : sub2 [] = [] := by
  simp [sub2.eq_def]

/-- C5 (amended): for every snake_case identifier whose segments each start
with a lowercase letter and continue with lowercase letters or digits, and
whose internal segments (all but the last) are at least two characters
long, converting to camelCase with `_to_camel_case` and back with
`_to_lower_underscore` is the identity.  (Both conversions are Lean
functions, hence deterministic.)  The two-character condition on internal
segments is what the counterexample `"a_b_c"` forces: a one-character
internal segment makes the camelCase image contain two adjacent capitals,
which the reverse conversion collapses. -/
theorem c5_amended_roundtrip (f0 : Char) (ft : List Char)
    (ss : List (Char × List Char)) (h0 : isLowerAZ f0 = true)
    (h1 : allLowerDigit ft = true) (h2 : goodSegs ss = true) :
    to_lower_underscore (to_camel_case (String.mk (f0 :: (ft ++ segJoin ss))))
      = String.mk (f0 :: (ft ++ segJoin ss)) := by
  show String.mk (toLowerUnderscoreL (toCamelL (f0 :: (ft ++ segJoin ss))))
      = String.mk (f0 :: (ft ++ segJoin ss))
  congr 1
  rw [show toCamelL (f0 :: (ft ++ segJoin ss))
        = f0 :: camelAux (ft ++ segJoin ss) from rfl,
    camel_spec ss ft h1 h2]
  unfold toLowerUnderscoreL
  rw [show f0 :: (ft ++ segCamel ss) = (f0 :: ft) ++ segCamel ss from rfl,
    sub1_spec ss true (f0 :: ft) h2
      (fun _ => ⟨List.cons_ne_nil f0 ft,
        by rw [allLowerDigit_cons]; simp [lowerOrDigit_of_lower f0 h0, h1]⟩)
      (fun hc => nomatch hc),
    sub2_spec ss true (f0 :: ft) h2 (List.cons_ne_nil f0 ft)
      (by rw [allLowerDigit_cons]; simp [lowerOrDigit_of_lower f0 h0, h1]),
    List.map_append,
    map_pyLower_id (f0 :: ft)
      (by rw [allLowerDigit_cons]; simp [lowerOrDigit_of_lower f0 h0, h1]),
    map_pyLower_segSnakeOut ss h2]
  rfl

/-- Witness for C5 (amended) at the identifier `"foo_bar"`. -/
theorem c5_amended_roundtrip_witness :
    isLowerAZ 'f' = true ∧ allLowerDigit ['o', 'o'] = true ∧
    goodSegs [('b', ['a', 'r'])] = true ∧
    to_lower_underscore (to_camel_case
        (String.mk ('f' :: (['o', 'o'] ++ segJoin [('b', ['a', 'r'])]))))
      = String.mk ('f' :: (['o', 'o'] ++ segJoin [('b', ['a', 'r'])])) :=
  ⟨by decide, by decide, by decide,
    c5_amended_roundtrip 'f' ['o', 'o'] [('b', ['a', 'r'])]
      (by decide) (by decide) (by decide)⟩

/-- C5 (counterexample): the identifier `"a_b_c"` is snake_case, has no
consecutive uppercase runs and no leading digits, yet fails the round
trip: it camelCases to `"aBC"`, which converts back to `"a_bc"`. -/
theorem c5_counterexample :
    to_camel_case "a_b_c" = "aBC" ∧
    to_lower_underscore (to_camel_case "a_b_c") = "a_bc" ∧
    to_lower_underscore (to_camel_case "a_b_c") ≠ "a_b_c" := by
  have hcamel : to_camel_case "a_b_c" = "aBC" := by decide
  have hsub1 : sub1 ['a', 'B', 'C'] = ['a', 'B', 'C'] := by
    rw [sub1_skip_b 'a' 'B' 'C' [] (by decide), sub1_pair]
  have hsub2 : sub2 ['a', 'B', 'C'] = ['a', '_', 'B', 'C'] := by
    rw [sub2_hit 'a' 'B' ['C'] (by decide) (by decide), sub2_single]
  have hlow : to_lower_underscore "aBC" = "a_bc" := by
    show String.mk ((sub2 (sub1 ['a', 'B', 'C'])).map pyLowerChar) = "a_bc"
    rw [hsub1, hsub2]
    decide
  refine ⟨hcamel, ?_, ?_⟩
  · rw [hcamel]
    exact hlow
  · rw [hcamel, hlow]
    decide

-- ===== Helper lemmas for generic response documents =====

theorem extract_falsy (v : Json) (h : v.truthy = false) :
    extract_datetime v = .ok none := by
  cases v with
  | str s =>
    have hs : s = "" := by
      have h2 : (s == "") = true := by simpa [Json.truthy] using h
      exact eq_of_beq h2
    subst hs
    rfl
  | int n => rfl
  | bool b => rfl
  | null => rfl
  | arr xs => rfl
  | obj fs => rfl

theorem wrapValue_falsy (gtz : Option String) (k : String) (v : Json)
    (h : v.truthy = false) :
    ∃ r, wrapValue gtz k v = .ok r ∧ rvalTruthy r = false := by
  cases v with
  | str s =>
    refine ⟨.scalar (.str s), ?_, h⟩
    unfold wrapValue get_date_value
    rw [extract_falsy _ h]
  | int n =>
    refine ⟨.scalar (.int n), ?_, h⟩
    unfold wrapValue get_date_value
    rw [extract_falsy _ h]
  | bool b =>
    refine ⟨.scalar (.bool b), ?_, h⟩
    unfold wrapValue get_date_value
    rw [extract_falsy _ h]
  | null =>
    refine ⟨.scalar .null, ?_, h⟩
    unfold wrapValue get_date_value
    rw [extract_falsy _ h]
  | arr xs =>
    have hx : xs = [] := by simpa [Json.truthy] using h
    subst hx
    exact ⟨.listView [], rfl, rfl⟩
  | obj fs =>
    have hf : fs = [] := by simpa [Json.truthy] using h
    subst hf
    exact ⟨.objView [], rfl, rfl⟩

theorem getattr_found (gtz : Option String) (data : List (String × Json))
    (attr key : String) (v : Json)
    (hkey : String.mk (toCamelL attr.data) = key)
    (hlook : lookupField data key = some v) :
    resultGetattr gtz data attr = wrapValue gtz key v := by
  unfold resultGetattr
  rw [hkey, hlook]

-- ===== Claim theorems =====

/-- C1: for the response field `"transDateAndTime": "2023-01-15T10:30:00"`
with configured gateway timezone `America/New_York`, reading
`trans_date_and_time` returns the *naive* parsed datetime
2023-01-15 10:30:00 — not the UTC instant 2023-01-15T15:30:00Z the claim
states.  `__getattr__` hands the camelCase key `"transDateAndTime"` to
`_get_date_value`, which tests membership in
`TZ_AWARE_FIELDS = ['trans_date_and_time']` (snake_case), so the timezone
branch is unreachable from attribute access; and had it been reached, the
`astimezone(tzinfo=...)` call raises `TypeError`, as the last conjunct
shows for the snake_case name. -/
theorem c1_tz_conversion_not_applied :
    resultGetattr (some "America/New_York")
        [("transDateAndTime", Json.str "2023-01-15T10:30:00")]
        "trans_date_and_time"
      = .ok (.temporal (.dt ⟨2023, 1, 15, 10, 30, 0⟩)) ∧
    TZ_AWARE_FIELDS.contains "transDateAndTime" = false ∧
    TZ_AWARE_FIELDS.contains "trans_date_and_time" = true ∧
    get_date_value (some "America/New_York") "trans_date_and_time"
        (Json.str "2023-01-15T10:30:00") = .error .typeError :=
  ⟨rfl, rfl, rfl, rfl⟩

/-- C2: for a failed response carrying a validation-failure list, `request`
does not raise a `GatewayValidationError` whose message list mirrors the
failure list — constructing the error crashes with `AttributeError` on
`error_messages`, because `super(Exception, self).__init__` inside
`GatewayValidationError.__init__` dispatches past `GatewayError.__init__`,
which is the only code that would have assigned `error_messages`. -/
theorem c2_validation_error_construction_crashes :
    classifyResponse none
        [("isSuccess", Json.bool false),
         ("validationHasFailed", Json.bool true),
         ("validationFailures",
           Json.arr [Json.obj [("message", Json.str "Card number is invalid")]]),
         ("errorMessages", Json.arr [Json.str "Validation failed"])]
      = .error (.attributeError "error_messages") := rfl

/-- C3 (counterexample): a response document with `isSuccess` false and no
validation fields at all — exactly the shape of the synthetic document the
wrapper builds for a non-JSON body — makes the classification crash with
`AttributeError` on `validation_has_failed` instead of raising the generic
`GatewayError` the claim promises. -/
theorem c3_counterexample :
    classifyResponse none
        [("isSuccess", Json.bool false),
         ("errorMessages", Json.arr [Json.str "oops"])]
      = .error (.attributeError "validation_has_failed") := rfl

/-- C3 (amended): for every response document whose `isSuccess` field is
present and falsy, whose `validationHasFailed` field is present and falsy,
and whose `errorMessages` field is a nonempty list, the request
classification raises the generic `GatewayError`; its stored message list
is the wrapped `errorMessages` list and its first message — the argument
handed to `BaseException.__init__` — is the first entry of that list. -/
theorem c3_amended (gtz : Option String) (data : List (String × Json))
    (sv vv m0 : Json) (ms : List Json)
    (h1 : lookupField data "isSuccess" = some sv) (h2 : sv.truthy = false)
    (h3 : lookupField data "validationHasFailed" = some vv)
    (h4 : vv.truthy = false)
    (h5 : lookupField data "errorMessages" = some (Json.arr (m0 :: ms))) :
    classifyResponse gtz data
      = .ok (.raisedGateway
          ⟨data, .listView ((m0 :: ms).map wrapElem), wrapElem m0⟩) := by
  have g1 : resultGetattr gtz data "is_success" = wrapValue gtz "isSuccess" sv :=
    getattr_found gtz data "is_success" "isSuccess" sv rfl h1
  obtain ⟨r1, hr1, ht1⟩ := wrapValue_falsy gtz "isSuccess" sv h2
  have g2 : resultGetattr gtz data "validation_has_failed"
      = wrapValue gtz "validationHasFailed" vv :=
    getattr_found gtz data "validation_has_failed" "validationHasFailed" vv rfl h3
  obtain ⟨r2, hr2, ht2⟩ := wrapValue_falsy gtz "validationHasFailed" vv h4
  have g3 : resultGetattr gtz data "error_messages"
      = wrapValue gtz "errorMessages" (Json.arr (m0 :: ms)) :=
    getattr_found gtz data "error_messages" "errorMessages" (Json.arr (m0 :: ms))
      rfl h5
  have g4 : wrapValue gtz "errorMessages" (Json.arr (m0 :: ms))
      = .ok (.listView ((m0 :: ms).map wrapElem)) := rfl
  simp only [classifyResponse, g1, hr1, ht1, g2, hr2, ht2, mkGatewayError, g3, g4,
    List.map_cons, pyIndex0, Bool.false_eq_true, if_false]

/-- Witness for C3 (amended) at a concrete failed response document. -/
theorem c3_amended_witness :
    lookupField [("isSuccess", Json.bool false),
        ("validationHasFailed", Json.bool false),
        ("errorMessages", Json.arr [Json.str "Invalid merchant key"])] "isSuccess"
      = some (Json.bool false) ∧
    (Json.bool false).truthy = false ∧
    lookupField [("isSuccess", Json.bool false),
        ("validationHasFailed", Json.bool false),
        ("errorMessages", Json.arr [Json.str "Invalid merchant key"])]
        "validationHasFailed" = some (Json.bool false) ∧
    lookupField [("isSuccess", Json.bool false),
        ("validationHasFailed", Json.bool false),
        ("errorMessages", Json.arr [Json.str "Invalid merchant key"])]
        "errorMessages" = some (Json.arr [Json.str "Invalid merchant key"]) ∧
    classifyResponse none [("isSuccess", Json.bool false),
        ("validationHasFailed", Json.bool false),
        ("errorMessages", Json.arr [Json.str "Invalid merchant key"])]
      = .ok (.raisedGateway
          ⟨[("isSuccess", Json.bool false),
            ("validationHasFailed", Json.bool false),
            ("errorMessages", Json.arr [Json.str "Invalid merchant key"])],
           .listView ([Json.str "Invalid merchant key"].map wrapElem),
           wrapElem (Json.str "Invalid merchant key")⟩) :=
  ⟨rfl, rfl, rfl, rfl,
    c3_amended none _ (Json.bool false) (Json.bool false)
      (Json.str "Invalid merchant key") [] rfl rfl rfl rfl rfl⟩

/-- C4: an HTTP body that is not valid JSON (`decoded = none`) yields a
normal failure view: `is_success` reads `False` and `error_messages` reads
the one-element list holding the raw body text; construction itself is
total, so no distinct parse error is raised.  The final two conjuncts
instantiate the body `"Service Unavailable"`. -/
theorem c4_nonjson_body (gtz : Option String) (text : String) :
    resultGetattr gtz (mkResultFields none text) "is_success"
      = .ok (.scalar (Json.bool false)) ∧
    resultGetattr gtz (mkResultFields none text) "error_messages"
      = .ok (.listView [.plain (Json.str text)]) ∧
    resultGetattr gtz (mkResultFields none "Service Unavailable") "is_success"
      = .ok (.scalar (Json.bool false)) ∧
    resultGetattr gtz (mkResultFields none "Service Unavailable") "error_messages"
      = .ok (.listView [.plain (Json.str "Service Unavailable")]) :=
  ⟨rfl, rfl, rfl, rfl⟩

/-- C6: the clock-time recognizer never matches an actual clock time — the
malformed quantifier `{1:2}` in `TIME_RE` is read by CPython as five
literal characters, so `"10:30"`, `"9:05"` and `"10:30 AM"` all fail,
`_extract_datetime` reports the "not a date" sentinel, and reading such a
field returns the raw string rather than a parsed time.  Only degenerate
strings containing the literal text `{1:2}` match, as the final conjunct
shows. -/
theorem c6_time_regex_broken :
    matchTIME "10:30".data = false ∧
    matchTIME "9:05".data = false ∧
    matchTIME "10:30 AM".data = false ∧
    extract_datetime (Json.str "10:30") = .ok none ∧
    resultGetattr none [("someTime", Json.str "10:30")] "some_time"
      = .ok (.scalar (Json.str "10:30")) ∧
    matchTIME ['1', '{', '1', ':', '2', '}', ':', '3', '0'] = true :=
  ⟨rfl, rfl, rfl, rfl, rfl, rfl⟩

/-- C7: every operation posts to one of exactly two fixed domains selected
by `test_mode`, with its action string appended as the final path segment,
and every action string except one belongs to the spec's fixed enumeration;
the auth-using-vault operation, however, posts the misspelled segment
`"AuthUsingValut"`, which is not the spec's `"AuthUsingVault"` and appears
nowhere in the enumeration. -/
theorem c7_auth_using_vault_misspelled :
    (∀ op : Operation, op ∈ allOperations) ∧
    (allOperations.all (fun op =>
        (op == .create_auth_using_vault)
          || specActionNames.contains (actionName op))) = true ∧
    actionName .create_auth_using_vault = "AuthUsingValut" ∧
    specActionNames.contains "AuthUsingValut" = false ∧
    requestUrl false (actionName .create_auth_using_vault)
      = "https://secure.1stpaygateway.net/secure/RestGW/Gateway/Transaction/AuthUsingValut" ∧
    requestUrl true (actionName .create_auth_using_vault)
      = "https://secure-v.goemerchant.com/secure/RestGW/Gateway/Transaction/AuthUsingValut" := by
  refine ⟨?_, by decide, rfl, by decide, rfl, rfl⟩
  intro op
  cases op <;> decide

/-- C8: `query(start_date=date(2023,1,1), end_date=date(2023,1,31))`
evaluated under a system-local timezone of UTC (offset 0) builds exactly
`query_time_zone_offset=0`, the six start-boundary fields for midnight
2023-01-01 (`hour=0`, `minute=0`, `AM`), and the six end-boundary fields
for the end of day 2023-01-31 (`hour=11` on the 12-hour clock, `minute=59`,
`PM`). -/
theorem c8_query_date_expansion :
    queryParams 0 (some (.d 2023 1 1)) (some (.d 2023 1 31)) []
      = [("query_time_zone_offset", Json.int 0),
         ("query_start_year", Json.int 2023), ("query_start_month", Json.int 1),
         ("query_start_day", Json.int 1), ("query_start_hour", Json.int 0),
         ("query_start_minute", Json.int 0), ("query_start_AMPM", Json.str "AM"),
         ("query_end_year", Json.int 2023), ("query_end_month", Json.int 1),
         ("query_end_day", Json.int 31), ("query_end_hour", Json.int 11),
         ("query_end_minute", Json.int 59), ("query_end_AMPM", Json.str "PM")] :=
  rfl

/-- C9: assigning a non-underscore attribute on a result wrapper does not
cleanly fail with the read-only condition: before the read-only
`AttributeError` can be raised, the handler executes the leftover
`import ipdb; ipdb.set_trace()` debugging statement, which raises
`ModuleNotFoundError` wherever `ipdb` is absent (it is not among the
package's declared dependencies) or suspends execution in an interactive
debugger.  The document itself is never mutated: no store step occurs. -/
theorem c9_setattr_debug_trap (attr : String) (h : startsWithUnderscore attr = false) :
    resultSetattrTrace attr = [.importIpdb, .setTrace, .raiseReadOnly] ∧
    SetStep.storeField ∉ resultSetattrTrace attr := by
  have e : resultSetattrTrace attr = [.importIpdb, .setTrace, .raiseReadOnly] := by
    simp [resultSetattrTrace, h]
  refine ⟨e, ?_⟩
  rw [e]
  decide

/-- Witness for C9 at the attribute `"amount"`. -/
theorem c9_setattr_debug_trap_witness :
    startsWithUnderscore "amount" = false ∧
    (resultSetattrTrace "amount" = [.importIpdb, .setTrace, .raiseReadOnly] ∧
     SetStep.storeField ∉ resultSetattrTrace "amount") :=
  ⟨by decide, c9_setattr_debug_trap "amount" (by decide)⟩

/-- C10: assigning an underscore-prefixed attribute succeeds — it stores the
value on the wrapper instance itself via `object.__setattr__`, with no
debugger step and no read-only error: the read-only guard applies exactly
to names that do not start with an underscore. -/
theorem c10_setattr_underscore_stores (attr : String)
    (h : startsWithUnderscore attr = true) :
    resultSetattrTrace attr = [.storeField] := by
  simp [resultSetattrTrace, h]

/-- Witness for C10 at the attribute `"_data"`. -/
theorem c10_setattr_underscore_stores_witness :
    startsWithUnderscore "_data" = true ∧ resultSetattrTrace "_data" = [.storeField] :=
  ⟨by decide, c10_setattr_underscore_stores "_data" (by decide)⟩
